import Mathlib

/-!
Shallow embedding of the ISO-9660 read-only filesystem driver
(src/iso.h, src/util.h, src/isofs.c) and proofs about the behaviour of
its operations.  The disc image is modelled as a total byte function
(raw : Nat -> Nat) together with its size, matching the mmap view the C
code works on (reads beyond the mapped file yield 0, matching the
zero-filled page tail).  Machine arithmetic that matters (uint32
multiplication, size_t subtraction) is modelled with explicit mod 2^32 /
mod 2^64.
-/

/-- Error kinds of the driver (errno values in the C code). -/
inductive Err where
  | NotFound          -- ENOENT
  | NotADirectory     -- ENOTDIR
  | IsADirectory      -- EISDIR
  | PermissionDenied  -- EACCES
  | ReadOnly          -- EROFS
  | NameTooLong       -- ENAMETOOLONG
  | MalformedVolume   -- EINVAL
  | OutOfMemory       -- ENOMEM
  deriving DecidableEq, Repr

/-- The loaded image: mmapped bytes, file size, and the byte offset of the
primary volume descriptor (the pvd pointer of struct ISO in util.h). -/
structure ISOm where
  raw : Nat → Nat
  size : Nat
  pvdPos : Nat

/-- One byte of the image (a dereference of iso->raw). -/
def rd (img : ISOm) (i : Nat) : Nat := img.raw i

/-- Little-endian 16-bit read (uint16_lsb fields). -/
def readLE16 (img : ISOm) (p : Nat) : Nat := rd img p + 256 * rd img (p + 1)

/-- Little-endian 32-bit read (uint32_lsb fields). -/
def readLE32 (img : ISOm) (p : Nat) : Nat :=
  rd img p + 256 * rd img (p + 1) + 65536 * rd img (p + 2) + 16777216 * rd img (p + 3)

/-- n consecutive bytes starting at p. -/
def readBytes (img : ISOm) (p n : Nat) : List Nat :=
  (List.range n).map (fun i => rd img (p + i))

/-- C-string value of a byte buffer: the bytes before the first NUL. -/
def truncAtNul (l : List Nat) : List Nat := l.takeWhile (fun b => b ≠ 0)

/-- Logical block size, read from the PVD (offset 128 inside the PVD). -/
def bsOf (img : ISOm) : Nat := readLE16 img (img.pvdPos + 128)

/-- Byte offset of the root directory record embedded in the PVD (offset 156). -/
def rootRecPos (img : ISOm) : Nat := img.pvdPos + 156

/-- PVD path_table_size field (offset 132). -/
def ptSize (img : ISOm) : Nat := readLE32 img (img.pvdPos + 132)

/-- PVD path_table_loc field (offset 140). -/
def ptLoc (img : ISOm) : Nat := readLE32 img (img.pvdPos + 140)

/-- Directory record: length byte (offset 0 of struct Record). -/
def recLen (img : ISOm) (p : Nat) : Nat := rd img p

/-- Directory record: extent_location (offset 2). -/
def recExtLoc (img : ISOm) (p : Nat) : Nat := readLE32 img (p + 2)

/-- Directory record: extent_length (offset 10). -/
def recExtLen (img : ISOm) (p : Nat) : Nat := readLE32 img (p + 10)

/-- Directory record: file_flags (offset 25). -/
def recFlags (img : ISOm) (p : Nat) : Nat := rd img (p + 25)

/-- Directory record: filename_length (offset 32). -/
def recNameLen (img : ISOm) (p : Nat) : Nat := rd img (p + 32)

/-- 2^32, the modulus of uint32 arithmetic. -/
def U32 : Nat := 4294967296

/-- 2^64, the modulus of size_t arithmetic. -/
def U64 : Nat := 18446744073709551616

/-- The RRExtraData bag of util.h.  Timestamps keep the form flag
(dec_datetime vs datetime) and the raw bytes the C code would feed to
mktime; the claims never inspect the converted values. -/
structure RRExtra where
  flags : Nat := 0
  mode : Nat := 0
  nlinks : Nat := 0
  uid : Nat := 0
  gid : Nat := 0
  ino : Nat := 0
  filename : List Nat := []
  creation : Bool × List Nat := (false, [])
  modification : Bool × List Nat := (false, [])
  access : Bool × List Nat := (false, [])
  deriving DecidableEq, Repr

/-- SUSP signature constants (uint16 little-endian of the two ASCII chars). -/
def SIG_SP : Nat := 0x5053
def SIG_ST : Nat := 0x5453
def SIG_CE : Nat := 0x4543
def SIG_PX : Nat := 0x5850
def SIG_NM : Nat := 0x4D4E
def SIG_TF : Nat := 0x4654

/-- SUSP signature at p: the uint16 read of the two signature bytes. -/
def sigAt (img : ISOm) (p : Nat) : Nat := rd img p + 256 * rd img (p + 1)

/-- get_susp_field of util.h: the consistency checks that are actually
reachable.  (The per-signature checks for ES, RR, PX, PN, SL, NM, CL and
TF in the C source sit after a break statement and are dead code, so only
SP, ST, CE and ER are validated.) -/
def suspValid (img : ISOm) (p remaining : Nat) : Bool :=
  if remaining < 4 then false else
  let sig := sigAt img p
  let slen := rd img (p + 2)
  if remaining < slen then false else
  if sig = SIG_SP then slen == 7 && rd img (p + 4) == 0xBE && rd img (p + 5) == 0xEF
  else if sig = SIG_ST then slen == 4
  else if sig = SIG_CE then slen == 28
  else if sig = 0x5245 then
    decide (8 ≤ slen) && slen == 8 + rd img (p + 4) + rd img (p + 5) + rd img (p + 6)
  else true

/-- One PX field applied to the accumulator (lines 240-250 of util.h). -/
def applyPX (img : ISOm) (p slen : Nat) (rr : RRExtra) : RRExtra :=
  let rr := { rr with
    flags := rr.flags ||| 1
    mode := readLE32 img (p + 4)
    nlinks := readLE32 img (p + 12)
    uid := readLE32 img (p + 20)
    gid := readLE32 img (p + 28) }
  if slen = 44 then { rr with flags := rr.flags ||| 2, ino := readLE32 img (p + 36) }
  else rr

/-- One NM field applied to the accumulator (lines 251-264 of util.h).
name_length is the size_t value susp->length - 4 - 1; when the C value
underflows the copy overruns its 256-byte destination (undefined
behaviour), which we cap at 256 bytes — no claim exercises that case. -/
def applyNM (img : ISOm) (p slen : Nat) (rr : RRExtra) : RRExtra :=
  let fl := rd img (p + 4)
  if fl = 2 then { rr with flags := rr.flags ||| 4, filename := [46] }
  else if fl = 4 then { rr with flags := rr.flags ||| 4, filename := [46, 46] }
  else if fl = 1 ∨ fl = 0 then
    let nameLen := (slen + (U64 - 5)) % U64
    { rr with
      flags := rr.flags ||| 4
      filename := truncAtNul (readBytes img (p + 5) (min nameLen 256)) }
  else rr

/-- One TF field applied to the accumulator (lines 265-292 of util.h).
dataStart is the address of the current SUSP buffer, offset/len its
cursor and length; the timestamp bytes are recorded raw. -/
def applyTF (img : ISOm) (dataStart offset len : Nat) (rr : RRExtra) : RRExtra :=
  let p := dataStart + offset
  let fl := rd img (p + 4)
  let dec := fl &&& 0x80 ≠ 0
  let tsz := if dec then 17 else 7
  let tfo := offset + 5
  let step1 :=
    if tfo + tsz < len ∧ fl &&& 1 ≠ 0 then
      ({ rr with
          flags := rr.flags ||| 8
          creation := (dec, readBytes img (dataStart + tfo) tsz) }, tfo + tsz)
    else (rr, tfo)
  let step2 :=
    if step1.2 + tsz < len ∧ fl &&& 2 ≠ 0 then
      ({ step1.1 with
          flags := step1.1.flags ||| 16
          modification := (dec, readBytes img (dataStart + step1.2) tsz) }, step1.2 + tsz)
    else step1
  if step2.2 + tsz < len ∧ fl &&& 4 ≠ 0 then
    { step2.1 with
      flags := step2.1.flags ||| 32
      access := (dec, readBytes img (dataStart + step2.2) tsz) }
  else step2.1

/-- The SUSP walking loop of read_rock_ridge_data (lines 227-299 of
util.h), with explicit fuel.  The Bool result is true when the C loop
returned, false when the fuel ran out — i.e. a run that never finishes
has all results false (see the CE-cycle theorem).  State: dataStart is
the address the data pointer points at, offset/len the cursor and
buffer length, rr the accumulator. -/
def rrLoop (img : ISOm) : Nat → Nat → Nat → Nat → RRExtra → RRExtra × Bool
  | 0, _, _, _, rr => (rr, false)
  | fuel + 1, dataStart, offset, len, rr =>
    if offset < len then
      let p := dataStart + offset
      if suspValid img p (len - offset) then
        let sig := sigAt img p
        let slen := rd img (p + 2)
        if sig = SIG_CE then
          let dOff := ((readLE32 img (p + 4)) * bsOf img + readLE32 img (p + 12)) % U32
          let celen := readLE32 img (p + 20)
          if dOff + celen > img.size then (rr, true)
          else rrLoop img fuel dOff 0 celen rr
        else
          let offset1 := if sig = SIG_SP then offset + rd img (p + 6) else offset
          let rr1 :=
            if sig = SIG_PX then applyPX img p slen rr
            else if sig = SIG_NM then applyNM img p slen rr
            else if sig = SIG_TF then applyTF img dataStart offset len rr
            else rr
          let offset2 := offset1 + slen
          if slen = 0 ∨ sig = SIG_ST then (rr1, true)
          else rrLoop img fuel dataStart offset2 len rr1
      else (rr, true)
    else (rr, true)

/-- read_rock_ridge_data of util.h: record-bounds prechecks, location of
the system-use area (with size_t subtraction), then the SUSP loop. -/
def rrRun (img : ISOm) (recPos fuel : Nat) : RRExtra × Bool :=
  let rr0 : RRExtra := {}
  if recPos ≥ img.size ∨ recPos + recLen img recPos > img.size then (rr0, true)
  else if recLen img recPos = 0 then (rr0, true)
  else
    let nl := recNameLen img recPos
    let suStart := recPos + 33 + nl + (1 - nl % 2)
    let susLen := (recPos + recLen img recPos + U64 - suStart) % U64
    rrLoop img fuel suStart 0 susLen rr0

/-- Total wrapper used by the rest of the driver.  2^64 fuel: every
terminating run of the C loop is reproduced exactly; the non-terminating
runs (cyclic CE chains, see the C3 theorem) are cut off. -/
def readRockRidgeData (img : ISOm) (recPos : Nat) : RRExtra :=
  (rrRun img recPos U64).1

/-- The stripped ISO-9660 name of get_record_filename (lines 321-327 of
util.h): strncpy of filename_length bytes, NUL-terminate, then chop from
the last semicolon. -/
def isoNameBuf (img : ISOm) (recPos : Nat) : List Nat :=
  let buf := truncAtNul (readBytes img (recPos + 33) (recNameLen img recPos))
  match (buf.reverse.findIdx? (fun b => b = 59)) with
  | some k => buf.take (buf.length - 1 - k)
  | none => buf

/-- Trailing-period trim (line 328-329 of util.h).  When the buffer is
empty the C code examines filename[(size_t)-1], a byte outside the
buffer; whatever that byte holds the string value is unchanged, so the
result is modelled as the empty name (the out-of-bounds index itself is
exposed by stripIdxOfRecord below). -/
def stripDot (l : List Nat) : List Nat :=
  if l = [] then []
  else if l.getD (l.length - 1) 0 = 46 then l.take (l.length - 1) else l

/-- get_record_filename of util.h. -/
def getRecordFilename (img : ISOm) (recPos : Nat) : List Nat :=
  let rr := readRockRidgeData img recPos
  if rr.flags &&& 4 ≠ 0 then rr.filename
  else if rd img (recPos + 33) = 0 then [46]
  else if rd img (recPos + 33) = 1 then [46, 46]
  else stripDot (isoNameBuf img recPos)

/-- The buffer index examined by the trailing-period check of
get_record_filename, in the size_t arithmetic of the C source
(strlen result minus one); none when that code path is not reached. -/
def stripIdxOfRecord (img : ISOm) (recPos : Nat) : Option Nat :=
  let rr := readRockRidgeData img recPos
  if rr.flags &&& 4 ≠ 0 then none
  else if rd img (recPos + 33) = 0 then none
  else if rd img (recPos + 33) = 1 then none
  else some (((isoNameBuf img recPos).length + (U64 - 1)) % U64)

/-- First index of a slash (47) at position start or later. -/
def idxFrom (path : List Nat) (start : Nat) : Option Nat :=
  match (path.drop start).findIdx? (fun b => b = 47) with
  | some k => some (start + k)
  | none => none

/-- The splitting loop of get_path_names (lines 71-91 of util.h).  fuel
counts the remaining allowed components (32 - count); paths are the byte
lists of NUL-free C strings, so the path[start] == NUL test is the test
start >= length. -/
def gpnLoop (path : List Nat) : Nat → Nat → List (List Nat) →
    Except Err (List (List Nat) × Bool)
  | 0, _, _ => .error .NameTooLong
  | fuel + 1, start, acc =>
    let slash := idxFrom path start
    let endI := slash.getD path.length
    if endI - start > 255 then .error .NameTooLong
    else
      let acc1 := acc ++ [(path.drop start).take (endI - start)]
      let start1 := endI + 1
      if slash.isNone || decide (start1 ≥ path.length) then .ok (acc1, slash.isSome)
      else gpnLoop path fuel start1 acc1

/-- get_path_names of util.h: component list and trailing-slash bit. -/
def getPathNames (path : List Nat) : Except Err (List (List Nat) × Bool) :=
  match path with
  | [] => .error .NotFound
  | b :: rest =>
    if b ≠ 47 then .error .NotFound
    else if rest = [] then .ok ([], true)
    else gpnLoop path 32 1 []

/-- Start byte of a directory record's extent:
extent_location * logical_block_size in uint32 arithmetic (line 151 of
isofs.c). -/
def dirStart (img : ISOm) (d : Nat) : Nat := (recExtLoc img d * bsOf img) % U32

/-- The extent-bounds test of get_record (line 152 of isofs.c):
start_pos + extent_length computed in uint32, compared with the image
size. -/
def boundsFail (img : ISOm) (d : Nat) : Bool :=
  (dirStart img d + recExtLen img d) % U32 > img.size

/-- The child-matching loop of get_record (lines 160-177 of isofs.c).
Yields the byte position of the first record in the extent whose
filename equals target.  One fuel unit per iteration; the loop advances
offset every iteration whenever the block size is nonzero, so
extLen + 1 units make the fuel inexhaustible (a zero block size makes
the C code divide by zero). -/
def scanLoop (img : ISOm) (bs start extLen : Nat) (target : List Nat) :
    Nat → Nat → Option Nat
  | 0, _ => none
  | fuel + 1, offset =>
    if offset < extLen then
      let p := start + offset
      if getRecordFilename img p = target then some p
      else
        let off1 := offset + recLen img p
        let off2 := if recLen img (start + off1) = 0 then (off1 / bs + 1) * bs else off1
        scanLoop img bs start extLen target fuel off2
    else none

/-- Scan a directory extent for a child with the given name. -/
def scanDir (img : ISOm) (start extLen : Nat) (target : List Nat) : Option Nat :=
  scanLoop img (bsOf img) start extLen target (extLen + 1) 0

/-- The per-component descent of get_record (lines 149-194 of isofs.c):
bounds check on the current directory, child scan, ENOENT on a miss,
ENOTDIR when a non-directory is matched before the final component or
with a trailing slash, otherwise descend. -/
def getRecAux (img : ISOm) (trailing : Bool) : List (List Nat) → Nat → Except Err Nat
  | [], d => .ok d
  | c :: rest, d =>
    if boundsFail img d then .error .MalformedVolume
    else
      match scanDir img (dirStart img d) (recExtLen img d) c with
      | none => .error .NotFound
      | some r =>
        if (decide (rest ≠ []) || trailing) && (recFlags img r &&& 2 == 0) then
          .error .NotADirectory
        else getRecAux img trailing rest r

/-- get_record of isofs.c: the root fast path for the path consisting of
a single slash, then get_path_names and the component descent from the
root record. -/
def getRecord (img : ISOm) (path : List Nat) : Except Err Nat :=
  if path = [47] then .ok (rootRecPos img)
  else
    match getPathNames path with
    | .error e => .error e
    | .ok (parts, trailing) => getRecAux img trailing parts (rootRecPos img)

/-- The effective-permission expression of check_access (lines 225-233 of
isofs.c).  cu/cg are the caller's (fuse context) uid/gid, hu/hg the
values of getuid()/getgid() in the driver process. -/
def accessBits (hasStat : Bool) (mode : Nat) (isDir : Bool) (cu cg hu hg : Nat) : Nat :=
  if !hasStat then (if isDir then 5 else 4)
  else if cu = 0 then (if mode &&& 73 ≠ 0 then 7 else 6)
  else mode >>> (if cu = hu then 6 else if cg = hg then 3 else 0)

/-- The leaf permission test of check_access (line 234 of isofs.c):
(access & 7 & mask) == mask on the record's own bits. -/
def checkLeaf (img : ISOm) (cu cg hu hg recPos mask : Nat) : Bool :=
  let rr := readRockRidgeData img recPos
  let bits := accessBits (rr.flags &&& 1 ≠ 0) rr.mode (recFlags img recPos &&& 2 ≠ 0)
      cu cg hu hg
  bits &&& 7 &&& mask == mask

/-- Index of the last slash in a byte list (strrchr(s, 47)). -/
def lastSlashIdx : List Nat → Option Nat
  | [] => none
  | x :: rest =>
    match lastSlashIdx rest with
    | some i => some (i + 1)
    | none => if x = 47 then some 0 else none

/-- The parent-path computation of check_access (lines 211-217 of
isofs.c): drop a trailing slash, then truncate just after the last
remaining slash; none when no slash remains (no parent to check). -/
def parentPath (path : List Nat) : Option (List Nat) :=
  match lastSlashIdx path with
  | none => none
  | some i =>
    if i + 1 = path.length then
      match lastSlashIdx (path.take i) with
      | none => none
      | some j => some ((path.take i).take (j + 1))
    else some (path.take (i + 1))

/-- check_access of isofs.c with explicit fuel for the recursion on the
parent path (the parent is strictly shorter, so path.length + 1 units
always suffice).  The record argument is the possibly-NULL pointer the
C code receives; dereferencing NULL — and fuel exhaustion, which cannot
happen — give none (the C program would crash). -/
def checkAccessF (img : ISOm) (cu cg hu hg : Nat) :
    Nat → Option Nat → List Nat → Nat → Option Bool
  | 0, _, _, _ => none
  | fuel + 1, recPos?, path, mask =>
    let leaf : Option Bool :=
      match recPos? with
      | none => none
      | some r => some (checkLeaf img cu cg hu hg r mask)
    match parentPath path with
    | none => leaf
    | some par =>
      match checkAccessF img cu cg hu hg fuel (getRecord img par).toOption par 1 with
      | none => none
      | some false => some false
      | some true => leaf

/-- check_access of isofs.c. -/
def checkAccess (img : ISOm) (cu cg hu hg : Nat) (recPos? : Option Nat)
    (path : List Nat) (mask : Nat) : Option Bool :=
  checkAccessF img cu cg hu hg (path.length + 1) recPos? path mask

/-- The stat result filled in by isofs_getattr.  Times are produced by
the host's mktime through the conversion parameters mk7 (7-byte compact
datetime) and mk17 (17-byte decimal datetime). -/
structure StatM where
  mode : Nat
  nlink : Nat
  uid : Nat
  gid : Nat
  ino : Nat
  fsize : Nat
  blocks : Nat
  mtime : Int
  atime : Int
  ctime : Int
  deriving DecidableEq, Repr

/-- isofs_getattr of isofs.c (lines 305-353).  mk7/mk17 stand for
convert_datetime/convert_dec_datetime, whose mktime output depends on
the host time zone. -/
def isofsGetattr (mk7 mk17 : List Nat → Int) (img : ISOm) (hu hg : Nat)
    (path : List Nat) : Except Err StatM :=
  match getRecord img path with
  | .error e => .error e
  | .ok r =>
    let rr := readRockRidgeData img r
    let hasStat := rr.flags &&& 1 ≠ 0
    let mode := if hasStat then rr.mode else
      if recFlags img r &&& 2 ≠ 0 then 0o40555 else 0o100444
    let nlink := if hasStat then rr.nlinks else 1
    let uid := if hasStat then rr.uid else hu
    let gid := if hasStat then rr.gid else hg
    let ino := if rr.flags &&& 2 ≠ 0 then rr.ino else 1
    let recT : Int := mk7 (readBytes img (r + 18) 7)
    let conv := fun (p : Bool × List Nat) => if p.1 then mk17 p.2 else mk7 p.2
    let mtime := if rr.flags &&& 16 ≠ 0 then conv rr.modification else recT
    let atime := if rr.flags &&& 32 ≠ 0 then conv rr.access else recT
    let ctime := if rr.flags &&& 8 ≠ 0 then conv rr.creation else recT
    .ok { mode := mode, nlink := nlink, uid := uid, gid := gid, ino := ino,
          fsize := recExtLen img r, blocks := (recExtLen img r + 511) / 512,
          mtime := mtime, atime := atime, ctime := ctime }

/-- isofs_access of isofs.c (lines 363-380).  The outer Option is none
when the C program would dereference a NULL record inside the recursive
check_access (a crash, not a return). -/
def isofsAccess (img : ISOm) (cu cg hu hg : Nat) (path : List Nat) (mask : Nat) :
    Option (Except Err Unit) :=
  if mask &&& 2 ≠ 0 then some (.error .ReadOnly)
  else
    match getRecord img path with
    | .error e => some (.error e)
    | .ok r =>
      if mask = 0 then some (.ok ())
      else
        match checkAccess img cu cg hu hg (some r) path mask with
        | none => none
        | some true => some (.ok ())
        | some false => some (.error .PermissionDenied)

/-- isofs_open of isofs.c (lines 502-529).  On success the handle is the
(data pointer, size) pair stored in isofs_file: the extent start byte in
uint32 arithmetic and extent_length. -/
def isofsOpen (img : ISOm) (cu cg hu hg : Nat) (path : List Nat) (flags : Nat) :
    Option (Except Err (Nat × Nat)) :=
  if flags &&& 2 ≠ 0 || flags &&& 1 ≠ 0 then some (.error .PermissionDenied)
  else
    match getRecord img path with
    | .error e => some (.error e)
    | .ok r =>
      if recFlags img r &&& 2 ≠ 0 then some (.error .IsADirectory)
      else
        match checkAccess img cu cg hu hg (some r) path 4 with
        | none => none
        | some false => some (.error .PermissionDenied)
        | some true => some (.ok ((recExtLoc img r * bsOf img) % U32, recExtLen img r))

/-- isofs_read of isofs.c (lines 544-556) on a handle (dataPos, fsize):
the truncation  if (f->size - offset < size) size = f->size - offset;
computed in size_t arithmetic, then the memcpy.  Returns the byte count
and the copied bytes. -/
def isofsRead (img : ISOm) (dataPos fsize offset n : Nat) : Nat × List Nat :=
  let sub := (fsize + U64 - offset % U64) % U64
  let n1 := if sub < n then sub else n
  (n1, readBytes img (dataPos + offset) n1)

/-- The enumeration loop of isofs_readdir (lines 446-466 of isofs.c),
yielding every record's filename; the filler is modelled as always
accepting.  Note the loop has no bounds check against the image size. -/
def readdirLoop (img : ISOm) (bs start extLen : Nat) :
    Nat → Nat → List (List Nat)
  | 0, _ => []
  | fuel + 1, offset =>
    if offset < extLen then
      let p := start + offset
      let name := getRecordFilename img p
      let off1 := offset + recLen img p
      let off2 := if recLen img (start + off1) = 0 then (off1 / bs + 1) * bs else off1
      name :: readdirLoop img bs start extLen fuel off2
    else []

/-- isofs_readdir of isofs.c on a directory-record handle. -/
def isofsReaddir (img : ISOm) (dirPos : Nat) : List (List Nat) :=
  readdirLoop img (bsOf img) ((recExtLoc img dirPos * bsOf img) % U32)
    (recExtLen img dirPos) (recExtLen img dirPos + 1) 0

/-- The path-table walk of get_number_of_files (lines 345-349 of
util.h); every step advances offset by at least 8, so ptSize + 1 fuel
units are inexhaustible. -/
def gnfLoop (img : ISOm) (endB : Nat) : Nat → Nat → Nat → Nat
  | 0, _, count => count
  | fuel + 1, offset, count =>
    if offset < endB ∧ offset < img.size then
      gnfLoop img endB fuel (offset + 8 + rd img offset + rd img offset % 2) (count + 1)
    else count

/-- get_number_of_files of util.h: the statfs f_files value. -/
def getNumberOfFiles (img : ISOm) : Nat :=
  let offset0 := (ptLoc img * bsOf img) % U32
  gnfLoop img (offset0 + ptSize img) (ptSize img + 1) offset0 0

/-- Volume-descriptor header validation of load_iso (line 85 of
isofs.c): id equals the five bytes CD001 and version equals 1. -/
def descOk (raw : Nat → Nat) (off : Nat) : Bool :=
  raw (off + 6) == 1 && raw (off + 1) == 67 && raw (off + 2) == 68 &&
  raw (off + 3) == 48 && raw (off + 4) == 48 && raw (off + 5) == 49

/-- The descriptor scan of load_iso (lines 80-109 of isofs.c).  pvd
holds the offset of the first primary descriptor seen so far; the scan
stops successfully at the first terminator provided a primary was seen,
and fails with EINVAL on a bad header, on running past the end of the
image, or on a terminator with no primary. -/
def loadAux (raw : Nat → Nat) (size : Nat) (offset : Nat) (pvd : Option Nat) :
    Except Err Nat :=
  if offset < size then
    if descOk raw offset then
      let t := raw offset
      let pvd1 := if t = 1 ∧ pvd = none then some offset else pvd
      if t = 255 then
        match pvd1 with
        | some p => .ok p
        | none => .error .MalformedVolume
      else loadAux raw size (offset + 2048) pvd1
    else .error .MalformedVolume
  else .error .MalformedVolume
  termination_by size - offset
  decreasing_by omega

/-- load_iso of isofs.c: scan from byte 0x8000, returning the byte
offset of the primary volume descriptor. -/
def loadIso (raw : Nat → Nat) (size : Nat) : Except Err Nat :=
  loadAux raw size 0x8000 none

/-- Modelled from the words of claim C5 (and spec section 4.6): the
effective permission bits with the owner test against the RECORD's PX
uid.  Used only to compare the claim against the code. -/
def claimEffective (hasPX : Bool) (mode recUid recGid : Nat) (isDir : Bool)
    (cu cg hu hg : Nat) : Nat :=
  if !hasPX then (if isDir then 5 else 4)
  else if cu = 0 then (if mode &&& 73 ≠ 0 then 7 else 6)
  else if cu = (if hasPX then recUid else hu) then (mode >>> 6) &&& 7
  else if cg = (if hasPX then recGid else hg) then (mode >>> 3) &&& 7
  else mode &&& 7

/-- Grant decision of claim C5: (effective & mask) == mask. -/
def claimGrant (hasPX : Bool) (mode recUid recGid : Nat) (isDir : Bool)
    (cu cg hu hg mask : Nat) : Bool :=
  claimEffective hasPX mode recUid recGid isDir cu cg hu hg &&& mask == mask

/-- The C5 claim amended: the owner/group tests compare the caller
against the uid/gid of the driver process (getuid()/getgid()), never
against the record. -/
def amendedEffective (hasStat : Bool) (mode : Nat) (isDir : Bool)
    (cu cg hu hg : Nat) : Nat :=
  if !hasStat then (if isDir then 5 else 4)
  else if cu = 0 then (if mode &&& 73 ≠ 0 then 7 else 6)
  else if cu = hu then (mode >>> 6) &&& 7
  else if cg = hg then (mode >>> 3) &&& 7
  else mode &&& 7

/-- Sparse byte map: association list with default 0 (unset bytes of an
image read as 0, like the zero-filled tail of an mmapped file). -/
def byteMap : List (Nat × Nat) → Nat → Nat
  | [], _ => 0
  | (k, v) :: rest, i => if i = k then v else byteMap rest i

/-- A small image used as a concrete test vehicle: PVD at byte 0 with
block size 1; root directory record at 156 (extent at 200, length 116,
directory flag); child record README at 200 (regular file, extent at
byte 150 holding the five bytes of the word hello, length 5); child
record SECRET at 240 (regular file) carrying a Rock Ridge PX field at
280 with mode 0o600, nlinks 1, uid 1000, gid 1000. -/
def demoBytes : List (Nat × Nat) :=
  [(128, 1),
   (156, 34), (158, 200), (166, 116), (181, 2), (188, 1),
   (150, 104), (151, 101), (152, 108), (153, 108), (154, 111),
   (200, 40), (202, 150), (210, 5), (232, 6),
   (233, 82), (234, 69), (235, 65), (236, 68), (237, 77), (238, 69),
   (240, 76), (272, 6),
   (273, 83), (274, 69), (275, 67), (276, 82), (277, 69), (278, 84),
   (280, 80), (281, 88), (282, 36), (283, 1), (284, 128), (285, 1),
   (292, 1), (300, 232), (301, 3), (308, 232), (309, 3)]

/-- The demo image. -/
def demoImg : ISOm := { raw := byteMap demoBytes, size := 320, pvdPos := 0 }

/-- Image whose only interesting content is a directory record at byte
20 claiming an extent (location 400, block size 1, length 50) that ends
far beyond the 64-byte image. -/
def badExtBytes : List (Nat × Nat) :=
  [(128, 1), (20, 34), (22, 144), (23, 1), (30, 50), (45, 2), (52, 1)]

/-- The malformed-extent image for the readdir counterexample. -/
def badExtImg : ISOm := { raw := byteMap badExtBytes, size := 64, pvdPos := 0 }

/-- Image with a record at byte 50 whose system-use area is a single CE
field pointing at (block 0, offset 500, length 28), and whose
continuation area at byte 500 is again a CE field pointing at (block 0,
offset 500, length 28): a continuation chain that revisits its own
block forever. -/
def cycBytes : List (Nat × Nat) :=
  [(128, 1),
   (50, 62), (82, 1),
   (84, 67), (85, 69), (86, 28), (87, 1), (96, 244), (97, 1), (104, 28),
   (500, 67), (501, 69), (502, 28), (503, 1), (512, 244), (513, 1), (520, 28)]

/-- The cyclic-continuation image. -/
def cycImg : ISOm := { raw := byteMap cycBytes, size := 600, pvdPos := 0 }

/-- Image whose PVD announces a path table of 524297 bytes at block 0;
every entry byte is 0, so each path-table entry advances the cursor by
8 bytes and the walk counts 65538 entries. -/
def bigPtImg : ISOm :=
  { raw := fun i => if i = 132 then 9 else if i = 134 then 8 else 0,
    size := 524297, pvdPos := 0 }

/-- Image with a record at byte 20 whose ISO filename is the two bytes
of ;1 (a bare version suffix) and which carries no Rock Ridge name. -/
def verBytes : List (Nat × Nat) :=
  [(20, 36), (52, 2), (53, 59), (54, 49)]

/-- The bare-version-name image. -/
def verImg : ISOm := { raw := byteMap verBytes, size := 100, pvdPos := 0 }

/-- Byte content of a well-formed descriptor area: a primary descriptor
at 0x8000 (type 1, id CD001, version 1) and a terminator at 0x8800. -/
def loadBytes : List (Nat × Nat) :=
  [(0x8000, 1), (0x8001, 67), (0x8002, 68), (0x8003, 48), (0x8004, 48),
   (0x8005, 49), (0x8006, 1),
   (0x8800, 255), (0x8801, 67), (0x8802, 68), (0x8803, 48), (0x8804, 48),
   (0x8805, 49), (0x8806, 1)]

/-- The loadable raw byte function. -/
def loadRaw : Nat → Nat := byteMap loadBytes

/-- Helper for the C7 theorem: on the big-path-table image every entry
byte is 0, so from offset 8*s the walk adds one entry per 8 bytes until
offset reaches the table end at 524297. -/
theorem gnf_zero_walk (fuel : Nat) : ∀ s count : Nat, s ≤ 65538 → 65538 - s ≤ fuel →
    gnfLoop bigPtImg 524297 fuel (8 * s) count = count + (65538 - s) := by
  induction fuel with
  | zero =>
    intro s count hs hf
    have hs65 : s = 65538 := by omega
    subst hs65
    simp [gnfLoop]
  | succ fuel ih =>
    intro s count hs hf
    rcases Nat.lt_or_ge s 65538 with h | h
    · have hcond : 8 * s < 524297 := by omega
      have hz : rd bigPtImg (8 * s) = 0 := by
        simp only [rd, bigPtImg]
        have h1 : ¬ (8 * s = 132) := by omega
        have h2 : ¬ (8 * s = 134) := by omega
        simp [h1, h2]
      have step : gnfLoop bigPtImg 524297 (fuel + 1) (8 * s) count
          = gnfLoop bigPtImg 524297 fuel (8 * s + 8) (count + 1) := by
        simp only [gnfLoop]
        rw [if_pos ⟨by simpa [bigPtImg] using hcond, by simpa [bigPtImg] using hcond⟩]
        rw [hz]
      rw [step]
      have h8 : 8 * s + 8 = 8 * (s + 1) := by ring
      rw [h8, ih (s + 1) (count + 1) (by omega) (by omega)]
      omega
    · have hs65 : s = 65538 := by omega
      subst hs65
      simp [gnfLoop]

/-- Helper for the C3 theorem: from the state whose buffer is the
28-byte continuation area at byte 500 of cycImg — a CE field pointing
back at itself — one iteration of the SUSP loop reproduces the same
state, so no amount of fuel finishes the loop. -/
theorem ce_cycle_spins (fuel : Nat) : ∀ rr : RRExtra,
    (rrLoop cycImg fuel 500 0 28 rr).2 = false := by
  induction fuel with
  | zero => intro rr; rfl
  | succ fuel ih =>
    intro rr
    have step : rrLoop cycImg (fuel + 1) 500 0 28 rr = rrLoop cycImg fuel 500 0 28 rr := rfl
    rw [step]
    exact ih rr

/-- Claim C1.  The claim states that read returns exactly
max(0, min(n, L - offset)) bytes, 0 for offset at or past L.  The code
is wrong for offset strictly past L: the size_t subtraction
f->size - offset wraps, the truncation branch is skipped, and the full
n bytes are returned from beyond the extent.  First two conjuncts:
truncation works as claimed at offset 0 (a 10-byte request on the
5-byte file at byte 150 of demoImg returns the 5 extent bytes).  Third
conjunct: the failing input — offset 6 on the 5-byte file with n = 1
returns 1 byte where the claim demands 0. -/
theorem isofs_read_past_eof_c1 :
    (isofsRead demoImg 150 5 0 10).1 = 5
    ∧ (isofsRead demoImg 150 5 0 10).2 = [104, 101, 108, 108, 111]
    ∧ (isofsRead demoImg 150 5 6 1).1 = 1 := by
  exact ⟨rfl, rfl, rfl⟩

/-- Claim C2, counterexample.  The directory record at byte 20 of
badExtImg has extent_location 400, block size 1 and extent_length 50,
so its extent ends at 450, far beyond the 64-byte image; the claim says
readdir must fail with MalformedVolume, but isofs_readdir has no bounds
check: it iterates the whole extent and yields 50 records (every one
read from bytes outside the image, each decoding to the name "."). -/
theorem readdir_unchecked_c2_cex :
    recExtLoc badExtImg 20 * bsOf badExtImg + recExtLen badExtImg 20 > badExtImg.size
    ∧ recFlags badExtImg 20 &&& 2 ≠ 0
    ∧ isofsReaddir badExtImg 20 = List.replicate 50 [46] := by
  exact ⟨by decide, by decide, by decide⟩

/-- Claim C2, amended: only the resolver's child scan is guarded — it
fails with MalformedVolume (EINVAL) whenever
(extent_location * B) mod 2^32 + extent_length, taken mod 2^32, exceeds
the image size (the C check is done in uint32 arithmetic); readdir
iterates with no such check (see the counterexample). -/
theorem resolver_bounds_guard_c2 : ∀ (img : ISOm) (trailing : Bool) (d : Nat)
    (c : List Nat) (rest : List (List Nat)), boundsFail img d = true →
    getRecAux img trailing (c :: rest) d = .error .MalformedVolume := by
  intro img trailing d c rest h
  simp [getRecAux, h]

/-- Witness for the amended C2 theorem at the malformed directory of
badExtImg. -/
theorem resolver_bounds_guard_c2_witness :
    getRecAux badExtImg false [[120]] 20 = .error .MalformedVolume :=
  resolver_bounds_guard_c2 badExtImg false 20 [120] [] (by decide)

/-- Claim C3.  The claim states that every loop terminates on every
image, in particular the SUSP parser on a cyclic CE chain.  The code is
wrong: on cycImg the record at byte 50 has a CE field leading to a
28-byte continuation area at byte 500 whose sole field is a CE pointing
back at (block 0, offset 500, length 28); read_rock_ridge_data re-enters
the identical state on every iteration, so the loop never finishes no
matter how much fuel it is given. -/
theorem rock_ridge_ce_cycle_nonterm_c3 (fuel : Nat) : (rrRun cycImg 50 fuel).2 = false := by
  match fuel with
  | 0 => rfl
  | fuel + 1 =>
    have h1 : rrRun cycImg 50 (fuel + 1) = rrLoop cycImg fuel 500 0 28 {} := rfl
    rw [h1]
    exact ce_cycle_spins fuel {}

/-- Claim C4.  load scans 2048-byte sectors from 0x8000 (first and
third conjuncts); a descriptor with a bad id or version fails with
MalformedVolume (second conjunct); a valid non-terminator advances by
2048 recording the first primary descriptor, later primaries ignored
(third conjunct, the first-wins update); the first terminator stops
with the recorded PVD, or fails when none was recorded (fourth
conjunct); reaching the end of the image fails (fifth conjunct). -/
theorem load_iso_scan_c4 : ∀ (raw : Nat → Nat) (size offset : Nat) (pvd : Option Nat),
    (loadIso raw size = loadAux raw size 0x8000 none)
    ∧ (offset < size → descOk raw offset = false →
        loadAux raw size offset pvd = .error .MalformedVolume)
    ∧ (offset < size → descOk raw offset = true → raw offset ≠ 255 →
        loadAux raw size offset pvd
          = loadAux raw size (offset + 2048)
              (if raw offset = 1 ∧ pvd = none then some offset else pvd))
    ∧ (offset < size → descOk raw offset = true → raw offset = 255 →
        loadAux raw size offset pvd
          = (match pvd with | some p => Except.ok p | none => Except.error Err.MalformedVolume))
    ∧ (offset ≥ size → loadAux raw size offset pvd = .error .MalformedVolume) := by
  intro raw size offset pvd
  refine ⟨rfl, ?_, ?_, ?_, ?_⟩
  · intro h1 h2
    rw [loadAux]
    simp [h1, h2]
  · intro h1 h2 h3
    rw [loadAux]
    simp [h1, h2, h3]
  · intro h1 h2 h3
    rw [loadAux]
    have hne : ¬ ((255 : Nat) = 1 ∧ pvd = none) := by simp
    simp [h1, h2, h3, hne]
  · intro h1
    rw [loadAux]
    simp [Nat.not_lt.mpr h1]

/-- Witness for C4: the image with a primary descriptor at 0x8000 and a
terminator at 0x8800 loads successfully with the PVD at 0x8000, by
chaining the equations of the C4 theorem. -/
theorem load_iso_scan_c4_witness : loadIso loadRaw 36864 = .ok 32768 := by
  have h0 := (load_iso_scan_c4 loadRaw 36864 0 none).1
  have h1 := (load_iso_scan_c4 loadRaw 36864 32768 none).2.2.1
    (by decide) (by decide) (by decide)
  have h2 := (load_iso_scan_c4 loadRaw 36864 34816 (some 32768)).2.2.2.1
    (by decide) (by decide) (by decide)
  have hv : (if loadRaw 32768 = 1 ∧ (none : Option Nat) = none then some 32768 else none)
      = some 32768 := by decide
  rw [h0, h1, hv, h2]

/-- Claim C5, counterexample.  The SECRET record of demoImg carries a
PX field with mode 0o600 (= 384), uid 1000, gid 1000.  A caller with
uid = gid = 1001 on a host whose process runs with uid = gid = 1001 is,
per the claim, an "other" (caller uid differs from the record's PX uid
1000) and must be denied read (mode bits 0-2 are 0); but check_access
compares the caller against getuid()/getgid(), classifies it as owner,
extracts bits 6-8 = 6 and grants read. -/
theorem check_access_owner_c5_cex :
    (readRockRidgeData demoImg 240).flags &&& 1 ≠ 0
    ∧ (readRockRidgeData demoImg 240).uid = 1000
    ∧ (readRockRidgeData demoImg 240).mode = 384
    ∧ recFlags demoImg 240 &&& 2 = 0
    ∧ checkAccess demoImg 1001 1001 1001 1001 (some 240) [47, 83, 69, 67, 82, 69, 84] 4
        = some true
    ∧ claimGrant true 384 1000 1000 false 1001 1001 1001 1001 4 = false := by
  refine ⟨by decide, rfl, rfl, by decide, rfl, by decide⟩

/-- Claim C5, amended: the owner test compares the caller uid with the
uid of the driver process (getuid()), and the group test with
getgid(), in both cases regardless of the record's PX uid/gid; all
other clauses of the claim as stated.  First conjunct: the grant
decision computed from the code's bit expression equals the amended
formula for all inputs.  Second conjunct: the same at the level of
check_access's leaf test on an arbitrary image record. -/
theorem check_access_bits_c5 :
    (∀ (hasStat isDir : Bool) (mode cu cg hu hg mask : Nat),
      (accessBits hasStat mode isDir cu cg hu hg &&& 7 &&& mask == mask)
        = (amendedEffective hasStat mode isDir cu cg hu hg &&& mask == mask))
    ∧ (∀ (img : ISOm) (cu cg hu hg r mask : Nat),
      checkLeaf img cu cg hu hg r mask
        = (amendedEffective ((readRockRidgeData img r).flags &&& 1 ≠ 0)
            (readRockRidgeData img r).mode (recFlags img r &&& 2 ≠ 0) cu cg hu hg
            &&& mask == mask)) := by
  have core : ∀ (hasStat isDir : Bool) (mode cu cg hu hg mask : Nat),
      (accessBits hasStat mode isDir cu cg hu hg &&& 7 &&& mask == mask)
        = (amendedEffective hasStat mode isDir cu cg hu hg &&& mask == mask) := by
    have e4 : ∀ m : Nat, (4 : Nat) &&& 7 &&& m = 4 &&& m := fun m => by
      rw [show (4 : Nat) &&& 7 = 4 from rfl]
    have e5 : ∀ m : Nat, (5 : Nat) &&& 7 &&& m = 5 &&& m := fun m => by
      rw [show (5 : Nat) &&& 7 = 5 from rfl]
    have e6 : ∀ m : Nat, (6 : Nat) &&& 7 &&& m = 6 &&& m := fun m => by
      rw [show (6 : Nat) &&& 7 = 6 from rfl]
    have e7 : ∀ m : Nat, (7 : Nat) &&& 7 &&& m = 7 &&& m := fun m => by
      rw [show (7 : Nat) &&& 7 = 7 from rfl]
    intro hasStat isDir mode cu cg hu hg mask
    simp only [accessBits, amendedEffective]
    cases hasStat with
    | false => cases isDir <;> simp [e4, e5]
    | true =>
      by_cases h3 : cu = 0
      · by_cases h6 : mode &&& 73 ≠ 0 <;> simp [h3, h6, e6, e7]
      · by_cases h4 : cu = hu
        · subst h4
          simp [h3]
        · by_cases h5 : cg = hg
          · subst h5
            simp [h3, h4]
          · simp [h3, h4, h5, Nat.shiftRight_zero]
  exact ⟨core, fun img cu cg hu hg r mask => core _ _ _ _ _ _ _ _⟩

/-- Claim C6.  First block, for an arbitrary directory d whose extent
passes the bounds check: a component with no matching child fails with
NotFound; a match on a non-directory fails with NotADirectory when more
components follow or the path had a trailing slash; otherwise the
resolver descends to the matched record (and returns it after the last
component).  Second block: the concrete scenario — when README matches
a non-directory child of the root, both /README/ (trailing slash) and
/README/x (interior component) resolve to NotADirectory. -/
theorem resolver_errors_c6 :
    (∀ (img : ISOm) (trailing : Bool) (d : Nat) (c : List Nat) (rest : List (List Nat)),
      boundsFail img d = false →
      ((scanDir img (dirStart img d) (recExtLen img d) c = none →
          getRecAux img trailing (c :: rest) d = .error .NotFound)
       ∧ (∀ r, scanDir img (dirStart img d) (recExtLen img d) c = some r →
           (rest ≠ [] ∨ trailing = true) → recFlags img r &&& 2 = 0 →
           getRecAux img trailing (c :: rest) d = .error .NotADirectory)
       ∧ (∀ r, scanDir img (dirStart img d) (recExtLen img d) c = some r →
           (recFlags img r &&& 2 ≠ 0 ∨ (rest = [] ∧ trailing = false)) →
           getRecAux img trailing (c :: rest) d = getRecAux img trailing rest r)))
    ∧ (∀ (img : ISOm) (r : Nat),
      boundsFail img (rootRecPos img) = false →
      scanDir img (dirStart img (rootRecPos img)) (recExtLen img (rootRecPos img))
        [82, 69, 65, 68, 77, 69] = some r →
      recFlags img r &&& 2 = 0 →
      getRecord img [47, 82, 69, 65, 68, 77, 69, 47] = .error .NotADirectory
      ∧ getRecord img [47, 82, 69, 65, 68, 77, 69, 47, 120] = .error .NotADirectory) := by
  have main : ∀ (img : ISOm) (trailing : Bool) (d : Nat) (c : List Nat)
      (rest : List (List Nat)), boundsFail img d = false →
      ((scanDir img (dirStart img d) (recExtLen img d) c = none →
          getRecAux img trailing (c :: rest) d = .error .NotFound)
       ∧ (∀ r, scanDir img (dirStart img d) (recExtLen img d) c = some r →
           (rest ≠ [] ∨ trailing = true) → recFlags img r &&& 2 = 0 →
           getRecAux img trailing (c :: rest) d = .error .NotADirectory)
       ∧ (∀ r, scanDir img (dirStart img d) (recExtLen img d) c = some r →
           (recFlags img r &&& 2 ≠ 0 ∨ (rest = [] ∧ trailing = false)) →
           getRecAux img trailing (c :: rest) d = getRecAux img trailing rest r)) := by
    intro img trailing d c rest hb
    refine ⟨?_, ?_, ?_⟩
    · intro hscan
      simp [getRecAux, hb, hscan]
    · intro r hscan hmid hflag
      have hd : (recFlags img r &&& 2 == 0) = true := by simp [hflag]
      rcases hmid with hmid | hmid
      · have hr : (decide (rest ≠ []) : Bool) = true := by simpa using hmid
        simp [getRecAux, hb, hscan, hr, hd]
      · subst hmid
        simp [getRecAux, hb, hscan, hd]
    · intro r hscan hside
      rcases hside with hflag | ⟨hrest, htr⟩
      · have hd : (recFlags img r &&& 2 == 0) = false := by simpa using hflag
        simp [getRecAux, hb, hscan, hd]
      · subst hrest; subst htr
        simp [getRecAux, hb, hscan]
  refine ⟨main, ?_⟩
  intro img r hb hscan hflag
  have hp1 : getPathNames [47, 82, 69, 65, 68, 77, 69, 47]
      = .ok ([[82, 69, 65, 68, 77, 69]], true) := by rfl
  have hp2 : getPathNames [47, 82, 69, 65, 68, 77, 69, 47, 120]
      = .ok ([[82, 69, 65, 68, 77, 69], [120]], false) := by rfl
  constructor
  · have h2 := (main img true (rootRecPos img) [82, 69, 65, 68, 77, 69] [] hb).2.1 r hscan
      (Or.inr rfl) hflag
    simp [getRecord, hp1, h2]
  · have h2 := (main img false (rootRecPos img) [82, 69, 65, 68, 77, 69] [[120]] hb).2.1 r hscan
      (Or.inl (by simp)) hflag
    simp [getRecord, hp2, h2]

/-- Witness for C6 on demoImg, whose root holds the regular file README
at byte 200. -/
theorem resolver_errors_c6_witness :
    getRecord demoImg [47, 82, 69, 65, 68, 77, 69, 47] = .error .NotADirectory
    ∧ getRecord demoImg [47, 82, 69, 65, 68, 77, 69, 47, 120] = .error .NotADirectory :=
  resolver_errors_c6.2 demoImg 200 (by decide) (by decide) (by decide)

/-- Claim C7.  The claim (and the comment above get_number_of_files)
says the count is capped at 65,536; the code has no such cap.  On
bigPtImg — path table at block 0, path_table_size 524297, every entry
byte 0 so each entry occupies 8 bytes — the walk counts 65,538
entries. -/
theorem path_table_count_c7 :
    getNumberOfFiles bigPtImg = 65538 ∧ 65536 < getNumberOfFiles bigPtImg := by
  have key := gnf_zero_walk 524298 0 0 (by omega) (by omega)
  have h : getNumberOfFiles bigPtImg = 65538 := by
    simpa [getNumberOfFiles, ptLoc, ptSize, bsOf, readLE16, readLE32, rd, bigPtImg, U32]
      using key
  exact ⟨h, by omega⟩

/-- Claim C8.  For every image and path, the existence probe
access(path, F_OK) succeeds exactly when getattr(path) succeeds, and on
failure both return the same lookup error: access with mask 0 equals
getattr with its stat payload erased. -/
theorem access_f_getattr_c8 : ∀ (mk7 mk17 : List Nat → Int) (img : ISOm)
    (cu cg hu hg : Nat) (path : List Nat),
    isofsAccess img cu cg hu hg path 0
      = some ((isofsGetattr mk7 mk17 img hu hg path).map (fun _ => ())) := by
  intro mk7 mk17 img cu cg hu hg path
  simp only [isofsAccess, isofsGetattr]
  cases h : getRecord img path <;> simp [h, Except.map]

/-- Claim C9.  The write-mode rejection precedes path resolution: for
every path whatsoever, open with a write or read-write flag returns
EACCES and access with W_OK in the mask returns EROFS, before
get_record runs. -/
theorem write_reject_before_resolve_c9 :
    (∀ (img : ISOm) (cu cg hu hg : Nat) (path : List Nat) (flags : Nat),
      flags &&& 2 ≠ 0 ∨ flags &&& 1 ≠ 0 →
      isofsOpen img cu cg hu hg path flags = some (.error .PermissionDenied))
    ∧ (∀ (img : ISOm) (cu cg hu hg : Nat) (path : List Nat) (mask : Nat),
      mask &&& 2 ≠ 0 →
      isofsAccess img cu cg hu hg path mask = some (.error .ReadOnly)) := by
  constructor
  · intro img cu cg hu hg path flags h
    rcases h with h | h
    · simp [isofsOpen, h]
    · rw [Nat.and_one_is_mod] at h
      simp [isofsOpen, h]
  · intro img cu cg hu hg path mask h
    simp [isofsAccess, h]

/-- Witness for C9 on the nonexistent path /nope of demoImg: O_WRONLY
open and W access are rejected with the write errors, not NotFound,
although resolution of the same path fails with NotFound. -/
theorem write_reject_before_resolve_c9_witness :
    isofsOpen demoImg 1001 1001 1001 1001 [47, 110, 111, 112, 101] 1
        = some (.error .PermissionDenied)
    ∧ isofsAccess demoImg 1001 1001 1001 1001 [47, 110, 111, 112, 101] 2
        = some (.error .ReadOnly)
    ∧ getRecord demoImg [47, 110, 111, 112, 101] = .error .NotFound := by
  refine ⟨?_, ?_, rfl⟩
  · exact write_reject_before_resolve_c9.1 demoImg 1001 1001 1001 1001 _ 1
      (Or.inr (by decide))
  · exact write_reject_before_resolve_c9.2 demoImg 1001 1001 1001 1001 _ 2 (by decide)

/-- Claim C10.  The claim states that filename derivation touches only
indices 0..255 of the output buffer, including when version stripping
leaves the name empty.  The code is wrong exactly there: for the record
of verImg whose ISO name is the two bytes of ;1, stripping the version
leaves the empty string, and the trailing-period check then reads
filename[strlen(filename) - 1] with strlen = 0, i.e. buffer index
2^64 - 1 in size_t arithmetic (one byte before the buffer), far outside
0..255. -/
theorem filename_strip_underflow_c10 :
    stripIdxOfRecord verImg 20 = some (U64 - 1)
    ∧ isoNameBuf verImg 20 = []
    ∧ 255 < U64 - 1 := by
  refine ⟨rfl, rfl, by decide⟩
